import Mathlib

/-!
Verification of the IntegramTable data-grid component
(src/assets/js/integram-table.js) against its specification.

The JavaScript source is shallowly embedded: the pure computations
(filter codec, column-visibility derivation, pagination bookkeeping)
become Lean functions over an explicit `TableState`, and the single
asynchronous fetch is split into a synchronous start step (guard +
request construction) and a synchronous completion step, mirroring the
structure of `loadData`.
-/

namespace IntegramTable

/-! ### JavaScript string primitives

JS `String.prototype.replace` with a string pattern replaces only the
first occurrence; `endsWith` and `toLowerCase` are modelled below.
Strings are Lean `String`s; all operations work on `String.data`
(the list of characters), matching JS code-unit indexing since every
character used by the component lies in the BMP.
-/

/-- Does `pat` occur at the start of `s`? (List-of-characters level.) -/
def startsWithList : List Char → List Char → Bool
  | [], _ => true
  | _ :: _, [] => false
  | p :: ps, c :: cs => p == c && startsWithList ps cs

/-- JS `s.endsWith(suffix)` (case-sensitive). -/
def jsEndsWith (s suf : String) : Bool :=
  startsWithList suf.data.reverse s.data.reverse

/-- JS `toLowerCase` restricted to the alphabets this component uses:
ASCII Latin and Cyrillic (the style-suffix check compares against
"стиль" and "style"). Other characters are unchanged. -/
def jsCharLower (c : Char) : Char :=
  if 65 ≤ c.toNat ∧ c.toNat ≤ 90 then Char.ofNat (c.toNat + 32)
  else if 0x410 ≤ c.toNat ∧ c.toNat ≤ 0x42F then Char.ofNat (c.toNat + 32)
  else if c.toNat = 0x401 then Char.ofNat 0x451
  else c

/-- JS `s.toLowerCase()`. -/
def jsToLower (s : String) : String :=
  ⟨s.data.map jsCharLower⟩

/-- Replace the first occurrence of `pat` by `rep` in the character list,
exactly as JS `String.prototype.replace` with a string pattern: scan left
to right, and if no occurrence exists return the input unchanged. -/
def replaceFirstAux (pat rep : List Char) : List Char → List Char
  | [] => if startsWithList pat [] then rep else []
  | c :: rest =>
    if startsWithList pat (c :: rest) then rep ++ (c :: rest).drop pat.length
    else c :: replaceFirstAux pat rep rest

/-- JS `s.replace(pat, rep)` (string pattern: first occurrence only). -/
def replaceFirst (s pat rep : String) : String :=
  ⟨replaceFirstAux pat.data rep.data s.data⟩

/-- Does `pat` occur anywhere in the character list? -/
def occursIn (pat : List Char) : List Char → Bool
  | [] => startsWithList pat []
  | c :: rest => startsWithList pat (c :: rest) || occursIn pat rest

/-- Does `pat` occur anywhere in `s`? -/
def containsStr (s pat : String) : Bool :=
  occursIn pat.data s.data

/-- JS `s.slice(0, -n)`: drop the last `n` characters. -/
def dropRightStr (s : String) (n : Nat) : String :=
  ⟨s.data.take (s.data.length - n)⟩

/-- JS `s.split(',')` on a single-character separator. -/
def splitCommaAux : List Char → List Char → List String
  | [], acc => [⟨acc.reverse⟩]
  | c :: rest, acc =>
    if c = ',' then ⟨acc.reverse⟩ :: splitCommaAux rest []
    else splitCommaAux rest (c :: acc)

/-- JS `s.split(',')`. -/
def jsSplitComma (s : String) : List String :=
  splitCommaAux s.data []

/-- The whitespace characters JS `trim` removes, restricted to the ASCII
whitespace that can occur in the component's inputs. -/
def jsIsSpace (c : Char) : Bool :=
  c = ' ' ∨ c = '\t' ∨ c = '\n' ∨ c = '\r'

/-- JS `s.trim()`. -/
def jsTrim (s : String) : String :=
  ⟨((s.data.dropWhile jsIsSpace).reverse.dropWhile jsIsSpace).reverse⟩

/-! Basic lemmas about the string primitives. -/

theorem data_append (s t : String) : (s ++ t).data = s.data ++ t.data := by
  cases s; cases t; rfl

theorem str_ext {s t : String} (h : s.data = t.data) : s = t := by
  cases s; cases t; exact congrArg String.mk h

theorem startsWithList_append_self (p t : List Char) :
    startsWithList p (p ++ t) = true := by
  induction p with
  | nil => rfl
  | cons c cs ih => simp [startsWithList, ih]

theorem drop_length_append (l m : List Char) : (l ++ m).drop l.length = m := by
  induction l with
  | nil => rfl
  | cons c cs ih => simp [ih]

theorem take_length_append (l m : List Char) : (l ++ m).take l.length = l := by
  induction l with
  | nil => rfl
  | cons c cs ih => simp [ih]

theorem replaceFirstAux_append_self (pat rep t : List Char) :
    replaceFirstAux pat rep (pat ++ t) = rep ++ t := by
  cases pat with
  | nil =>
    cases t with
    | nil => simp [replaceFirstAux, startsWithList]
    | cons c r => simp [replaceFirstAux, startsWithList]
  | cons p ps =>
    show replaceFirstAux (p :: ps) rep (p :: (ps ++ t)) = rep ++ t
    have hsw : startsWithList (p :: ps) (p :: (ps ++ t)) = true := by
      have := startsWithList_append_self (p :: ps) t
      simpa using this
    have hdrop : (p :: (ps ++ t)).drop (p :: ps).length = t :=
      drop_length_append (p :: ps) t
    simp [replaceFirstAux, hsw, hdrop]

theorem replaceFirstAux_append_left {p0 : Char} (pr rep : List Char) :
    ∀ (a t : List Char), p0 ∉ a →
    replaceFirstAux (p0 :: pr) rep (a ++ t) =
      a ++ replaceFirstAux (p0 :: pr) rep t := by
  intro a
  induction a with
  | nil => intro t _; rfl
  | cons c cs ih =>
    intro t ha
    have hc : (p0 == c) = false := by
      simp only [beq_eq_false_iff_ne]
      exact fun h => ha (by simp [h])
    show replaceFirstAux (p0 :: pr) rep (c :: (cs ++ t)) =
        c :: (cs ++ replaceFirstAux (p0 :: pr) rep t)
    simp only [replaceFirstAux, startsWithList, hc, Bool.false_and,
      if_neg (by simp : ¬ (false = true)), List.cons.injEq, true_and]
    exact ih t (fun h => ha (List.mem_cons_of_mem c h))

theorem replaceFirstAux_of_not_occurs (pat rep s : List Char)
    (h : occursIn pat s = false) : replaceFirstAux pat rep s = s := by
  induction s with
  | nil =>
    simp only [occursIn] at h
    simp [replaceFirstAux, h]
  | cons c rest ih =>
    simp only [occursIn, Bool.or_eq_false_iff] at h
    simp [replaceFirstAux, h.1, ih h.2]

/-- String-level: replacing `pat` in `pat ++ t` yields `rep ++ t`. -/
theorem replaceFirst_append_self (pat t rep : String) :
    replaceFirst (pat ++ t) pat rep = rep ++ t := by
  apply str_ext
  simp only [replaceFirst, data_append]
  exact replaceFirstAux_append_self pat.data rep.data t.data

/-- String-level: if the head character of `pat` does not occur in `a`,
the first occurrence of `pat` in `a ++ t` lies within `t`. -/
theorem replaceFirst_append_left (a t pat rep : String) (p0 : Char)
    (pr : List Char) (hp : pat.data = p0 :: pr) (ha : p0 ∉ a.data) :
    replaceFirst (a ++ t) pat rep = a ++ replaceFirst t pat rep := by
  apply str_ext
  simp only [replaceFirst, data_append, hp]
  exact replaceFirstAux_append_left pr rep.data a.data t.data ha

theorem occursIn_append_eq_false {pat : List Char} :
    ∀ (a t : List Char), occursIn pat (a ++ t) = false → occursIn pat t = false := by
  intro a
  induction a with
  | nil => intro t h; exact h
  | cons c cs ih =>
    intro t h
    simp only [List.cons_append, occursIn, Bool.or_eq_false_iff] at h
    exact ih t h.2

theorem contains_append_eq_false {s t pat : String}
    (h : containsStr (s ++ t) pat = false) : containsStr t pat = false := by
  simp only [containsStr, data_append] at h ⊢
  exact occursIn_append_eq_false s.data t.data h

/-- String-level: a pattern occurring nowhere is not replaced. -/
theorem replaceFirst_of_not_contains (s pat rep : String)
    (h : containsStr s pat = false) : replaceFirst s pat rep = s := by
  apply str_ext
  simp only [replaceFirst]
  exact replaceFirstAux_of_not_occurs pat.data rep.data s.data h

theorem empty_append (s : String) : "" ++ s = s := by
  apply str_ext
  simp [data_append]

/-! ### Data model

Column descriptors as returned by the record API (integram-table.js
constructor and fetch response). `granted` and `ref` are carried but not
consulted by the load engine, the visibility deriver or the filter codec. -/

structure Column where
  id : String
  name : String
  format : String
  granted : Nat := 1
  ref : Nat := 0
deriving DecidableEq

/-- One per-column filter entry: operator symbol (`type`) and raw text. -/
structure Filter where
  type : String
  value : String
deriving DecidableEq

/-- One entry of the operator tables `this.filterTypes` (lines 52-87). -/
structure FilterDef where
  symbol : String
  label : String
  format : String
deriving DecidableEq

/-- `this.filterTypes['CHARS']` (also aliased to SHORT and MEMO). -/
def charsFilters : List FilterDef :=
  [ ⟨"^", "nachinaetsya s", "FR_\x7b T \x7d=\x7b X \x7d%"⟩,
    ⟨"=", "ravno", "FR_\x7b T \x7d=\x7b X \x7d"⟩,
    ⟨"≠", "ne ravno", "FR_\x7b T \x7d=!\x7b X \x7d"⟩,
    ⟨"~", "soderzhit", "FR_\x7b T \x7d=%\x7b X \x7d%"⟩,
    ⟨"!", "ne soderzhit", "FR_\x7b T \x7d=!%\x7b X \x7d%"⟩,
    ⟨"!^", "ne nachinaetsya", "FR_\x7b T \x7d=!%\x7b X \x7d"⟩,
    ⟨"%", "ne pustoe", "FR_\x7b T \x7d=%"⟩,
    ⟨"!%", "pustoe", "FR_\x7b T \x7d=!%"⟩,
    ⟨"(,)", "v spiske", "FR_\x7b T \x7d=IN(\x7b X \x7d)"⟩,
    ⟨"$", "zakanchivaetsya", "FR_\x7b T \x7d=%\x7b X \x7d"⟩ ]

/-- `this.filterTypes['NUMBER']` (also aliased to SIGNED). -/
def numberFilters : List FilterDef :=
  [ ⟨"^", "nachinaetsya s", "FR_\x7b T \x7d=\x7b X \x7d%"⟩,
    ⟨"=", "ravno", "FR_\x7b T \x7d=\x7b X \x7d"⟩,
    ⟨"≠", "ne ravno", "FR_\x7b T \x7d=!\x7b X \x7d"⟩,
    ⟨"≥", "ne menshe", "FR_\x7b T \x7d=>=\x7b X \x7d"⟩,
    ⟨"≤", "ne bolshe", "FR_\x7b T \x7d=<=\x7b X \x7d"⟩,
    ⟨">", "bolshe", "FR_\x7b T \x7d>\x7b X \x7d"⟩,
    ⟨"<", "menshe", "FR_\x7b T \x7d<\x7b X \x7d"⟩,
    ⟨"...", "v diapazone", "FR_\x7b T \x7d=\x7b X1 \x7d&TO_\x7b T \x7d=\x7b X2 \x7d"⟩,
    ⟨"%", "ne pustoe", "FR_\x7b T \x7d=%"⟩,
    ⟨"!%", "pustoe", "FR_\x7b T \x7d=!%"⟩ ]

/-- `this.filterTypes['DATE']` (also aliased to DATETIME). -/
def dateFilters : List FilterDef :=
  [ ⟨"=", "ravno", "FR_\x7b T \x7d=\x7b X \x7d"⟩,
    ⟨"≥", "ne menshe", "FR_\x7b T \x7d=>=\x7b X \x7d"⟩,
    ⟨"≤", "ne bolshe", "FR_\x7b T \x7d=<=\x7b X \x7d"⟩,
    ⟨">", "bolshe", "FR_\x7b T \x7d>\x7b X \x7d"⟩,
    ⟨"<", "menshe", "FR_\x7b T \x7d<\x7b X \x7d"⟩,
    ⟨"...", "v diapazone", "FR_\x7b T \x7d=\x7b X1 \x7d&TO_\x7b T \x7d=\x7b X2 \x7d"⟩,
    ⟨"%", "ne pustoe", "FR_\x7b T \x7d=%"⟩,
    ⟨"!%", "pustoe", "FR_\x7b T \x7d=!%"⟩ ]

/-- `this.filterTypes[format] || this.filterTypes['SHORT']` together with
the aliases SHORT, MEMO ↦ CHARS; SIGNED ↦ NUMBER; DATETIME ↦ DATE
(lines 89-92 and 236-237). An empty format string stands for the JS
`column.format || 'SHORT'` default. -/
def filterGroupFor (fmt : String) : List FilterDef :=
  let f := if fmt = "" then "SHORT" else fmt
  if f = "CHARS" ∨ f = "SHORT" ∨ f = "MEMO" then charsFilters
  else if f = "NUMBER" ∨ f = "SIGNED" then numberFilters
  else if f = "DATE" ∨ f = "DATETIME" then dateFilters
  else charsFilters

/-- The filter codec, `applyFilter` (lines 231-255): wire query parameters
(name, value) pairs appended to the request for one column filter. -/
def applyFilter (column : Column) (filter : Filter) : List (String × String) :=
  let type := if filter.type = "" then "^" else filter.type
  let value := filter.value
  let colId := column.id
  let filterGroup := filterGroupFor column.format
  match filterGroup.find? (fun f => f.symbol = type) with
  | none => []
  | some filterDef =>
    if type = "..." then
      let values := (jsSplitComma value).map jsTrim
      if 2 ≤ values.length then
        [("FR_" ++ colId, values.getD 0 ""), ("TO_" ++ colId, values.getD 1 "")]
      else []
    else if type = "%" ∨ type = "!%" then
      [("FR_" ++ colId, if type = "%" then "%" else "!%")]
    else
      let paramValue := replaceFirst (replaceFirst filterDef.format "\x7b T \x7d" colId)
        "\x7b X \x7d" value
      let paramValue := replaceFirst paramValue ("FR_" ++ colId ++ "=") ""
      [("FR_" ++ colId, paramValue)]

/-! ### Column Visibility Deriver

`processColumnVisibility` (lines 257-303): derives the set of hidden
auxiliary column ids (`idColumns`), the style-carrier map
(`styleColumns`: base column id ↦ style column id) and the editable map
(`editableColumns`: base column id ↦ identifier column id). -/

/-- The three derived structures. `idColumns` models the JS `Set`,
`styleColumns` the JS object, `editableColumns` the JS `Map` (both maps
as insertion-ordered association lists with in-place update). -/
structure Derived where
  idColumns : List String
  styleColumns : List (String × String)
  editableColumns : List (String × String)
deriving DecidableEq

/-- JS `Set.prototype.add`. -/
def setAdd (l : List String) (x : String) : List String :=
  if x ∈ l then l else l ++ [x]

/-- JS `Map.prototype.set` / object property assignment on an
insertion-ordered association list. -/
def assocSet (l : List (String × String)) (k v : String) : List (String × String) :=
  if l.any (fun p => p.1 = k) then
    l.map (fun p => if p.1 = k then (k, v) else p)
  else l ++ [(k, v)]

/-- The `columnsByName` lookup (lines 263-266): a JS object keyed by
column name, so the last column with a given name wins. -/
def lastNamed (cols : List Column) (n : String) : Option Column :=
  cols.reverse.find? (fun c => c.name = n)

/-- One iteration of the `this.columns.forEach` body (lines 269-302). -/
def processColumn (cols : List Column) (st : Derived) (col : Column) : Derived :=
  let st1 :=
    if jsEndsWith col.name "ID" then
      let baseName := dropRightStr col.name 2
      match lastNamed cols baseName with
      | some baseCol =>
        { st with
          idColumns := setAdd st.idColumns col.id
          editableColumns := assocSet st.editableColumns baseCol.id col.id }
      | none => st
    else st
  let lowerName := jsToLower col.name
  if jsEndsWith lowerName "стиль" || jsEndsWith lowerName "style" then
    let baseName := dropRightStr col.name 5
    match cols.find? (fun c => jsToLower c.name = jsToLower baseName) with
    | some baseCol =>
      { st1 with
        styleColumns := assocSet st1.styleColumns baseCol.id col.id
        idColumns := setAdd st1.idColumns col.id }
    | none => st1
  else st1

/-- `processColumnVisibility` (lines 257-303). -/
def processColumnVisibility (cols : List Column) : Derived :=
  cols.foldl (processColumn cols) ⟨[], [], []⟩

/-- The condition under which the identifier rule hides `col`. -/
def idRuleHides (cols : List Column) (col : Column) : Bool :=
  jsEndsWith col.name "ID" && (lastNamed cols (dropRightStr col.name 2)).isSome

/-- The condition under which the style rule hides `col`. -/
def styleRuleHides (cols : List Column) (col : Column) : Bool :=
  (jsEndsWith (jsToLower col.name) "стиль" || jsEndsWith (jsToLower col.name) "style")
    && (cols.find? (fun c => jsToLower c.name = jsToLower (dropRightStr col.name 5))).isSome

theorem mem_setAdd {l : List String} {x y : String} :
    y ∈ setAdd l x ↔ y ∈ l ∨ y = x := by
  unfold setAdd
  split
  case isTrue h =>
    constructor
    · exact fun hy => Or.inl hy
    · rintro (hy | rfl)
      · exact hy
      · exact h
  case isFalse h => simp [or_comm]

theorem idColumns_processColumn (cols : List Column) (st : Derived)
    (col : Column) (x : String) :
    x ∈ (processColumn cols st col).idColumns ↔
      x ∈ st.idColumns ∨
        ((idRuleHides cols col = true ∨ styleRuleHides cols col = true) ∧ x = col.id) := by
  unfold processColumn idRuleHides styleRuleHides
  rcases hid : jsEndsWith col.name "ID" with _ | _ <;>
    rcases hst : (jsEndsWith (jsToLower col.name) "стиль" ||
        jsEndsWith (jsToLower col.name) "style") with _ | _ <;>
      rcases hfid : lastNamed cols (dropRightStr col.name 2) with _ | bc <;>
        rcases hfst : cols.find? (fun c =>
            jsToLower c.name = jsToLower (dropRightStr col.name 5)) with _ | sc <;>
          simp [hid, hst, hfid, hfst, mem_setAdd]

/-- Membership in the derived hidden set, characterised per column. -/
theorem mem_idColumns_iff (cols : List Column) (x : String) :
    x ∈ (processColumnVisibility cols).idColumns ↔
      ∃ c ∈ cols, (idRuleHides cols c = true ∨ styleRuleHides cols c = true) ∧ x = c.id := by
  unfold processColumnVisibility
  have main : ∀ (l : List Column) (st : Derived),
      x ∈ (l.foldl (processColumn cols) st).idColumns ↔
        x ∈ st.idColumns ∨
          ∃ c ∈ l, (idRuleHides cols c = true ∨ styleRuleHides cols c = true) ∧ x = c.id := by
    intro l
    induction l with
    | nil => intro st; simp
    | cons c cs ih =>
      intro st
      simp only [List.foldl_cons, ih, idColumns_processColumn, List.mem_cons]
      constructor
      · rintro ((h | h) | ⟨d, hd, hrule, rfl⟩)
        · exact Or.inl h
        · exact Or.inr ⟨c, Or.inl rfl, h.1, h.2⟩
        · exact Or.inr ⟨d, Or.inr hd, hrule, rfl⟩
      · rintro (h | ⟨d, (rfl | hd), hrule, rfl⟩)
        · exact Or.inl (Or.inl h)
        · exact Or.inl (Or.inr ⟨hrule, rfl⟩)
        · exact Or.inr ⟨d, hd, hrule, rfl⟩
  simpa using main cols ⟨[], [], []⟩

/-! ### Pagination / Load Engine

The mutable fields of an `IntegramTable` instance that the load engine
reads and writes (constructor, lines 29-50). Rows are lists of raw cell
strings; their contents are irrelevant to the engine. `pageSize` models
`options.pageSize` (kept in sync with `settings.pageSize` by the source
whenever either changes). -/

structure TableState where
  pageSize : Nat
  columns : List Column
  data : List (List String)
  loadedRecords : Nat
  totalRows : Option Nat
  hasMore : Bool
  isLoading : Bool
  filters : List (String × Filter)
  columnOrder : List String
  visibleColumns : List String
deriving DecidableEq

/-- A page fetch as issued by `loadData`: the `LIMIT=offset,size` range
plus the full ordered query-parameter list. -/
structure FetchRequest where
  offset : Nat
  size : Nat
  params : List (String × String)
deriving DecidableEq

/-- A fetch response: `json.columns` and `json.data` (column-major
array of arrays; an empty array means no rows). -/
structure FetchResponse where
  columns : List Column
  data : List (List String)
deriving DecidableEq

/-- Lines 136-150: transform column-based data to row-based data. For a
nonempty array of arrays the JS `Array.isArray(columnData[0])` test is
true, so the payload is transposed, taking the first column's length as
the row count; a missing cell (JS `undefined`) is modelled as `""`. -/
def jsNormalizeRows (columnData : List (List String)) : List (List String) :=
  match columnData with
  | [] => []
  | c0 :: _ => (List.range c0.length).map fun i => columnData.map fun col => col.getD i ""

/-- Lines 114-126: the query parameters of a page fetch — the `LIMIT`
range followed by the encoded active filters (entries whose value is
nonempty or whose operator is one of the valueless empty / not-empty
pair, and whose column id resolves in the current column list). -/
def requestParams (s : TableState) (offset requestSize : Nat) : List (String × String) :=
  ("LIMIT", toString offset ++ "," ++ toString requestSize) ::
    s.filters.flatMap (fun cf =>
      if cf.2.value ≠ "" ∨ cf.2.type = "%" ∨ cf.2.type = "!%" then
        match s.columns.find? (fun c => c.id = cf.1) with
        | some column => applyFilter column cf.2
        | none => []
      else [])

/-- The synchronous prefix of `loadData(append)` (lines 103-130): the
in-flight / end-of-data guard, and on passing it the `isLoading := true`
mutation together with the request that is handed to `fetch`. Returning
`none` models the early `return`: no request is issued and the state is
returned unchanged. -/
def loadDataStart (s : TableState) (append : Bool) : TableState × Option FetchRequest :=
  if s.isLoading || (!append && !s.hasMore && decide (0 < s.loadedRecords)) then
    (s, none)
  else
    let requestSize := s.pageSize + 1
    let offset := if append then s.loadedRecords else 0
    ({ s with isLoading := true },
      some ⟨offset, requestSize, requestParams s offset requestSize⟩)

/-- The success continuation of `loadData` (lines 133-202): normalize the
payload, detect `hasMore` by the pageSize+1 lookahead, truncate, merge,
infer the total count, re-derive auxiliary columns, fill in first-load
defaults for order/visibility, prune auxiliary ids from a restored
visibility list, and clear `isLoading` (the `finally` block). -/
def loadSuccess (s : TableState) (append : Bool) (resp : FetchResponse) : TableState :=
  let newRows0 := jsNormalizeRows resp.data
  let hasMore := decide (s.pageSize < newRows0.length)
  let newRows := if hasMore then newRows0.take s.pageSize else newRows0
  let data := if append then s.data ++ newRows else newRows
  let loadedRecords := (if append then s.loadedRecords else 0) + newRows.length
  let totalRows :=
    if hasMore = false ∧ s.totalRows = none then some loadedRecords else s.totalRows
  let derived := processColumnVisibility resp.columns
  { s with
    columns := resp.columns
    data := data
    loadedRecords := loadedRecords
    totalRows := totalRows
    hasMore := hasMore
    isLoading := false
    columnOrder := if s.columnOrder = [] then resp.columns.map Column.id else s.columnOrder
    visibleColumns :=
      if s.visibleColumns = [] then
        (resp.columns.filter (fun c => !(derived.idColumns.contains c.id))).map Column.id
      else
        s.visibleColumns.filter (fun i => !(derived.idColumns.contains i)) }

/-- The failure continuation of `loadData` (lines 193-202): state is
untouched except that `isLoading` is cleared. -/
def loadFailure (s : TableState) : TableState :=
  { s with isLoading := false }

/-- One full load: the guard/start step followed, when a request was
issued, by the success continuation applied to the given response. -/
def loadCycle (s : TableState) (append : Bool) (resp : FetchResponse) : TableState :=
  match loadDataStart s append with
  | (s1, none) => s1
  | (s1, some _) => loadSuccess s1 append resp

/-- A sequence of append loads, one response per load. -/
def runAppends (s : TableState) : List FetchResponse → TableState
  | [] => s
  | r :: rs => runAppends (loadCycle s true r) rs

/-- The number of rows a successful load merges from a response:
everything up to the configured page size (the lookahead row is cut). -/
def mergedCount (pageSize : Nat) (r : FetchResponse) : Nat :=
  min (jsNormalizeRows r.data).length pageSize

/-- The state mutation shared by every built-in reset trigger
(`reload` lines 1201-1208, `clearAllFilters` lines 1181-1194, the filter
debounce callback lines 666-673, the page-size handlers lines 1060-1092):
drop the rows, zero the counter, restore `hasMore`, forget the total. -/
def resetViewState (s : TableState) : TableState :=
  { s with data := [], loadedRecords := 0, hasMore := true, totalRows := none }

/-- `reload()` (lines 1201-1208): reset view state, then `loadData(false)`. -/
def reload (s : TableState) : TableState × Option FetchRequest :=
  loadDataStart (resetViewState s) false

/-- `clearAllFilters()` (lines 1181-1194). -/
def clearAllFilters (s : TableState) : TableState × Option FetchRequest :=
  loadDataStart (resetViewState { s with filters := [] }) false

/-- The page-size change handlers (lines 1060-1092): update both
`settings.pageSize` and `options.pageSize`, reset, reload. -/
def applyPageSize (s : TableState) (n : Nat) : TableState × Option FetchRequest :=
  loadDataStart (resetViewState { s with pageSize := n }) false

/-- The debounce timer callback of a filter value edit (lines 666-673). -/
def debounceTimerFire (s : TableState) : TableState × Option FetchRequest :=
  loadDataStart (resetViewState s) false

/-- The scroll listener (lines 697-706): fires `loadData(true)` only when
not loading, `hasMore`, and the viewport is near the table bottom (the
geometric test is abstracted as a boolean input). -/
def scrollTriggerLoads (s : TableState) (nearBottom : Bool) : Bool :=
  !s.isLoading && s.hasMore && nearBottom

/-- `checkAndLoadMore` (lines 712-724): fires `loadData(true)` only when
not loading, `hasMore`, and the table fits on screen. -/
def checkAndLoadMoreLoads (s : TableState) (fitsOnScreen : Bool) : Bool :=
  !s.isLoading && s.hasMore && fitsOnScreen

/-- The renderer's column view (lines 318-320): ids in user order,
resolved against the current column list, unresolved ids and invisible
columns dropped. -/
def orderedColumns (s : TableState) : List Column :=
  (s.columnOrder.filterMap (fun i => s.columns.find? (fun c => c.id = i))).filter
    (fun c => s.visibleColumns.contains c.id)

/-! ### Filter UI handlers (value edits and operator selection) -/

/-- What a UI handler does about reloading: nothing, an immediate
reset-and-reload, or a reload scheduled on the shared debounce timer. -/
inductive ReloadAction where
  | noReload
  | immediate
  | debounced (ms : Nat)
deriving DecidableEq

/-- JS `this.filters[colId]`, with the `{ type: '^', value: '' }` default
installed by both handlers when the entry is absent. -/
def jsGetFilter (filters : List (String × Filter)) (colId : String) : Filter :=
  ((filters.find? (fun p => p.1 = colId)).map Prod.snd).getD ⟨"^", ""⟩

/-- Store a filter entry (JS object property assignment). -/
def setFilterEntry (filters : List (String × Filter)) (colId : String) (f : Filter) :
    List (String × Filter) :=
  if filters.any (fun p => p.1 = colId) then
    filters.map (fun p => if p.1 = colId then (colId, f) else p)
  else filters ++ [(colId, f)]

/-- The filter input handler (lines 656-674): store the new value, then
(re)arm the shared 500 ms debounce timer whose callback is
`debounceTimerFire`. -/
def onFilterInput (s : TableState) (colId v : String) : TableState × ReloadAction :=
  let f := jsGetFilter s.filters colId
  ({ s with filters := setFilterEntry s.filters colId { f with value := v } },
    ReloadAction.debounced 500)

/-- The operator menu click handler (lines 859-894): store the new
operator symbol; for the valueless empty / not-empty operators clear the
value and reset-and-reload immediately; for any other operator
reset-and-reload immediately when a value is already present, otherwise
do nothing further. -/
def onFilterTypeSelect (s : TableState) (colId symbol : String) : TableState × ReloadAction :=
  let f0 := jsGetFilter s.filters colId
  let f1 := { f0 with type := symbol }
  if symbol = "%" ∨ symbol = "!%" then
    (resetViewState { s with filters := setFilterEntry s.filters colId { f1 with value := "" } },
      ReloadAction.immediate)
  else if f1.value ≠ "" then
    (resetViewState { s with filters := setFilterEntry s.filters colId f1 },
      ReloadAction.immediate)
  else
    ({ s with filters := setFilterEntry s.filters colId f1 }, ReloadAction.noReload)

/-! ### Helper lemmas about the engine steps -/

theorem loadSuccess_pageSize (s : TableState) (a : Bool) (r : FetchResponse) :
    (loadSuccess s a r).pageSize = s.pageSize := rfl

theorem loadSuccess_isLoading (s : TableState) (a : Bool) (r : FetchResponse) :
    (loadSuccess s a r).isLoading = false := rfl

theorem loadSuccess_loadedRecords (s : TableState) (a : Bool) (r : FetchResponse) :
    (loadSuccess s a r).loadedRecords
      = (if a then s.loadedRecords else 0) + mergedCount s.pageSize r := by
  unfold loadSuccess mergedCount
  by_cases h : s.pageSize < (jsNormalizeRows r.data).length <;>
    cases a <;> simp [h, List.length_take] <;> omega

theorem loadCycle_append (s : TableState) (r : FetchResponse)
    (h : s.isLoading = false) :
    loadCycle s true r = loadSuccess { s with isLoading := true } true r := by
  unfold loadCycle loadDataStart
  simp [h]

theorem runAppends_loadedRecords :
    ∀ (rs : List FetchResponse) (s : TableState), s.isLoading = false →
      (runAppends s rs).loadedRecords
        = s.loadedRecords + (rs.map (mergedCount s.pageSize)).sum := by
  intro rs
  induction rs with
  | nil => intro s _; simp [runAppends]
  | cons r rest ih =>
    intro s h
    show (runAppends (loadCycle s true r) rest).loadedRecords = _
    rw [loadCycle_append s r h,
      ih (loadSuccess { s with isLoading := true } true r) (loadSuccess_isLoading ..),
      loadSuccess_loadedRecords, loadSuccess_pageSize]
    simp [Nat.add_assoc]

/-! ### Claims -/

/-- C1: after every successful page fetch, `hasMore` is set exactly when
the number of normalized returned rows exceeds the configured page size;
when it exceeds, exactly `pageSize` rows are merged (truncation before
merging), otherwise all returned rows are merged — reset replaces the
row store, append concatenates. -/
theorem loadSuccess_lookahead (s : TableState) (append : Bool) (resp : FetchResponse) :
    (loadSuccess s append resp).hasMore
        = decide (s.pageSize < (jsNormalizeRows resp.data).length)
    ∧ (loadSuccess s append resp).data
        = (if append then s.data else [])
          ++ (if s.pageSize < (jsNormalizeRows resp.data).length
              then (jsNormalizeRows resp.data).take s.pageSize
              else jsNormalizeRows resp.data)
    ∧ (loadSuccess s append resp).loadedRecords
        = (if append then s.loadedRecords else 0)
          + (if s.pageSize < (jsNormalizeRows resp.data).length
             then s.pageSize
             else (jsNormalizeRows resp.data).length) := by
  refine ⟨rfl, ?_, ?_⟩ <;>
    unfold loadSuccess <;>
      by_cases h : s.pageSize < (jsNormalizeRows resp.data).length <;>
        cases append <;> simp [h, List.length_take] <;> omega

/-- C3: while a fetch is in flight, invoking `loadData` again in either
mode returns without issuing a request and without changing the state. -/
theorem loadDataStart_single_flight (s : TableState) (append : Bool)
    (h : s.isLoading = true) : loadDataStart s append = (s, none) := by
  unfold loadDataStart
  simp [h]

/-- A state with a load in flight, for the single-flight witness. -/
def busyState : TableState :=
  ⟨20, [], [], 0, none, true, true, [], [], []⟩

theorem loadDataStart_single_flight_witness :
    loadDataStart busyState true = (busyState, none) :=
  loadDataStart_single_flight busyState true rfl

/-- C6: when a successful load ends with `hasMore = false` and the total
was previously unknown, the total is set to the resulting loaded count
(by the same completion step, with no further request); a known total is
left unchanged. -/
theorem loadSuccess_total_inference (s : TableState) (append : Bool) (resp : FetchResponse) :
    ((loadSuccess s append resp).hasMore = false → s.totalRows = none →
      (loadSuccess s append resp).totalRows
        = some (loadSuccess s append resp).loadedRecords)
    ∧ (∀ n, s.totalRows = some n → (loadSuccess s append resp).totalRows = some n) := by
  unfold loadSuccess
  by_cases h : s.pageSize < (jsNormalizeRows resp.data).length <;>
    rcases ht : s.totalRows with _ | n <;> simp [h, ht]

/-- A fresh state and a short response for the total-count witness. -/
def freshState : TableState :=
  ⟨20, [], [], 0, none, true, false, [], [], []⟩

def shortResp : FetchResponse :=
  ⟨[⟨"1", "A", "CHARS", 1, 0⟩], [List.replicate 5 "v"]⟩

theorem loadSuccess_total_inference_witness :
    (loadSuccess freshState false shortResp).totalRows
      = some (loadSuccess freshState false shortResp).loadedRecords :=
  (loadSuccess_total_inference freshState false shortResp).1 (by decide) rfl

/-- A state that has reached the end of data with rows loaded. -/
def haltState : TableState :=
  ⟨20, [], [List.replicate 1 "v"], 5, some 5, false, false, [], [], []⟩

/-- C7 counterexample: with `hasMore = false`, 5 rows loaded and no load
in flight, calling `loadData` in append mode is NOT a no-op — the guard
(line 104) checks `hasMore` only for reset mode, so a request is issued
and `isLoading` is set. -/
theorem append_after_end_issues_fetch :
    (loadDataStart haltState true).2 ≠ none
    ∧ (loadDataStart haltState true).1 ≠ haltState := by
  decide

/-- C7 amended: when `hasMore` is false the built-in append triggers (the
scroll listener and the fits-on-screen check) do not invoke `loadData`,
so no fetch arises from them; but `loadData(append)` itself is guarded
only by the in-flight flag — called directly with no load in flight it
does issue a fetch at offset `loadedRecords`. -/
theorem append_end_guard (s : TableState) (nearBottom fits : Bool)
    (h : s.hasMore = false) :
    scrollTriggerLoads s nearBottom = false
    ∧ checkAndLoadMoreLoads s fits = false
    ∧ (s.isLoading = false →
        loadDataStart s true =
          ({ s with isLoading := true },
            some ⟨s.loadedRecords, s.pageSize + 1,
              requestParams s s.loadedRecords (s.pageSize + 1)⟩))
    ∧ (s.isLoading = true → loadDataStart s true = (s, none)) := by
  refine ⟨by simp [scrollTriggerLoads, h], by simp [checkAndLoadMoreLoads, h], ?_, ?_⟩ <;>
    intro hl <;> unfold loadDataStart <;> simp [hl]

theorem append_end_guard_witness :
    scrollTriggerLoads haltState true = false
    ∧ checkAndLoadMoreLoads haltState true = false :=
  ⟨(append_end_guard haltState true true rfl).1,
    (append_end_guard haltState true true rfl).2.1⟩

/-- C10: with `hasMore = false` and rows loaded, a reset-mode `loadData`
call is silently dropped by the guard (no request, state unchanged); the
built-in reset triggers (`reload`, `clearAllFilters`, the page-size
handlers, the filter debounce callback) restore `hasMore = true` first,
so their reset load does go out whenever no load is in flight. -/
theorem reset_after_end_guard (s : TableState) :
    (s.hasMore = false → 0 < s.loadedRecords → loadDataStart s false = (s, none))
    ∧ (s.isLoading = false →
        (reload s).2
            = some ⟨0, s.pageSize + 1, requestParams (resetViewState s) 0 (s.pageSize + 1)⟩
          ∧ (clearAllFilters s).2
            = some ⟨0, s.pageSize + 1,
                requestParams (resetViewState { s with filters := [] }) 0 (s.pageSize + 1)⟩
          ∧ (∀ n, (applyPageSize s n).2
            = some ⟨0, n + 1,
                requestParams (resetViewState { s with pageSize := n }) 0 (n + 1)⟩)
          ∧ (debounceTimerFire s).2
            = some ⟨0, s.pageSize + 1, requestParams (resetViewState s) 0 (s.pageSize + 1)⟩) := by
  constructor
  · intro h1 h2
    unfold loadDataStart
    simp [h1, h2]
  · intro hl
    refine ⟨?_, ?_, ?_, ?_⟩ <;>
      try intro n
    all_goals
      simp [reload, clearAllFilters, applyPageSize, debounceTimerFire,
        loadDataStart, resetViewState, hl]

theorem reset_after_end_guard_witness :
    loadDataStart haltState false = (haltState, none)
    ∧ (reload haltState).2
        = some ⟨0, 21, requestParams (resetViewState haltState) 0 21⟩ :=
  ⟨(reset_after_end_guard haltState).1 rfl (by decide),
    ((reset_after_end_guard haltState).2 rfl).1⟩

/-- C2: every load requests `pageSize + 1` rows at offset 0 (reset) or at
the current `loadedRecords` (append); after a reset load and any run of
successful appends with no intervening reset, `loadedRecords` equals the
sum of the rows merged by every load of the run. -/
theorem offset_bookkeeping (s : TableState) (h : s.isLoading = false)
    (hm : s.hasMore = true) (r0 : FetchResponse) (rs : List FetchResponse) :
    ((loadDataStart s false).2.map FetchRequest.offset = some 0)
    ∧ ((loadDataStart s false).2.map FetchRequest.size = some (s.pageSize + 1))
    ∧ (∀ s2 : TableState, s2.isLoading = false →
        (loadDataStart s2 true).2.map FetchRequest.offset = some s2.loadedRecords
        ∧ (loadDataStart s2 true).2.map FetchRequest.size = some (s2.pageSize + 1))
    ∧ (runAppends (loadCycle s false r0) rs).loadedRecords
        = mergedCount s.pageSize r0 + (rs.map (mergedCount s.pageSize)).sum := by
  have hreset : loadCycle s false r0 = loadSuccess { s with isLoading := true } false r0 := by
    unfold loadCycle loadDataStart
    simp [h, hm]
  refine ⟨?_, ?_, ?_, ?_⟩
  · unfold loadDataStart; simp [h, hm]
  · unfold loadDataStart; simp [h, hm]
  · intro s2 h2
    unfold loadDataStart
    simp [h2]
  · rw [hreset,
      runAppends_loadedRecords rs (loadSuccess { s with isLoading := true } false r0)
        (loadSuccess_isLoading ..),
      loadSuccess_loadedRecords, loadSuccess_pageSize]
    simp

/-- A three-row lookahead response for page size 2, and a one-row tail. -/
def wideResp : FetchResponse :=
  ⟨[⟨"1", "A", "CHARS", 1, 0⟩], [["a", "b", "c"]]⟩

def tailResp : FetchResponse :=
  ⟨[⟨"1", "A", "CHARS", 1, 0⟩], [["d"]]⟩

def smallState : TableState :=
  ⟨2, [], [], 0, none, true, false, [], [], []⟩

theorem offset_bookkeeping_witness :
    (runAppends (loadCycle smallState false wideResp) [tailResp]).loadedRecords
      = mergedCount smallState.pageSize wideResp
        + ([tailResp].map (mergedCount smallState.pageSize)).sum :=
  (offset_bookkeeping smallState rfl rfl wideResp [tailResp]).2.2.2

/-- Any column the renderer displays exists in the current column list. -/
theorem orderedColumns_mem (s : TableState) :
    ∀ c ∈ orderedColumns s, c ∈ s.columns := by
  intro c hc
  unfold orderedColumns at hc
  have hc2 := (List.mem_filter.mp hc).1
  rcases List.mem_filterMap.mp hc2 with ⟨i, _, hfind⟩
  exact List.mem_of_find?_eq_some hfind

/-- A state restored from a cookie naming a column id that the fetched
column list does not contain. -/
def staleState : TableState :=
  ⟨20, [], [], 0, none, true, false, [], ["zz"], ["zz"]⟩

def oneColResp : FetchResponse :=
  ⟨[⟨"1", "A", "CHARS", 1, 0⟩], []⟩

/-- C8 counterexample: after a completed load, `visibleColumns` can keep
an entry naming a column absent from the latest column list — the
post-load filter (line 185) removes only auxiliary (hidden) column ids,
not ids of columns that no longer exist. -/
theorem stale_visible_id_survives :
    "zz" ∈ (loadSuccess staleState false oneColResp).visibleColumns
    ∧ "zz" ∉ (loadSuccess staleState false oneColResp).columns.map Column.id := by
  decide

/-- C8 amended: after a completed load a restored `visibleColumns` list
is filtered only against the auxiliary column ids derived from the
fetched column list; the first-load default is a subset of the fetched
column ids; and stale entries are harmless — the renderer resolves ids
against the current column list and silently drops the misses, so every
rendered column exists. -/
theorem visible_columns_pruning (s : TableState) (append : Bool) (resp : FetchResponse) :
    (s.visibleColumns ≠ [] →
      (loadSuccess s append resp).visibleColumns
        = s.visibleColumns.filter
            (fun i => !((processColumnVisibility resp.columns).idColumns.contains i)))
    ∧ (s.visibleColumns = [] →
        ∀ i ∈ (loadSuccess s append resp).visibleColumns, i ∈ resp.columns.map Column.id)
    ∧ (∀ c ∈ orderedColumns (loadSuccess s append resp),
        c ∈ (loadSuccess s append resp).columns) := by
  refine ⟨?_, ?_, orderedColumns_mem _⟩
  · intro hne
    unfold loadSuccess
    simp [hne]
  · intro hempty i hi
    unfold loadSuccess at hi
    simp only [hempty, if_pos rfl] at hi
    rcases List.mem_map.mp hi with ⟨c, hc, rfl⟩
    exact List.mem_map_of_mem Column.id (List.mem_of_mem_filter hc)

theorem visible_columns_pruning_witness :
    (loadSuccess staleState false oneColResp).visibleColumns
      = staleState.visibleColumns.filter
          (fun i => !((processColumnVisibility oneColResp.columns).idColumns.contains i)) :=
  (visible_columns_pruning staleState false oneColResp).1 (by decide)

/-- A state with an active prefix filter whose value is nonempty. -/
def opState : TableState :=
  ⟨20, [⟨"4284", "N", "CHARS", 1, 0⟩], [], 0, none, true, false,
    [("4284", ⟨"^", "test"⟩)], [], []⟩

/-- C9 counterexample: changing only the operator symbol while the value
is nonempty triggers an IMMEDIATE reset-and-reload (lines 885-892), not
one scheduled through the 500 ms debounce window. -/
theorem operator_change_not_debounced :
    (onFilterTypeSelect opState "4284" "=").2 = ReloadAction.immediate
    ∧ (onFilterTypeSelect opState "4284" "=").2 ≠ ReloadAction.debounced 500 := by
  decide

/-- C9 amended: with a nonempty stored value, selecting any operator
other than the valueless empty / not-empty pair resets the view state
and reloads immediately; only value edits go through the 500 ms
debounce timer. -/
theorem operator_change_reloads_immediately (s : TableState) (colId symbol : String)
    (h1 : symbol ≠ "%") (h2 : symbol ≠ "!%")
    (h3 : (jsGetFilter s.filters colId).value ≠ "") :
    (onFilterTypeSelect s colId symbol).2 = ReloadAction.immediate
    ∧ (onFilterTypeSelect s colId symbol).1
        = resetViewState
            { s with
              filters := setFilterEntry s.filters colId
                  ({ jsGetFilter s.filters colId with type := symbol }) }
    ∧ (∀ v, (onFilterInput s colId v).2 = ReloadAction.debounced 500) := by
  unfold onFilterTypeSelect onFilterInput
  simp [h1, h2, h3]

theorem operator_change_reloads_immediately_witness :
    (onFilterTypeSelect opState "4284" "=").2 = ReloadAction.immediate :=
  (operator_change_reloads_immediately opState "4284" "="
    (by decide) (by decide) (by decide)).1

/-! ### Lemmas for the identifier-column rule -/

theorem data_mk (l : List Char) : (String.mk l).data = l := rfl

theorem jsEndsWith_append_ID (base : String) :
    jsEndsWith (base ++ "ID") "ID" = true := by
  unfold jsEndsWith
  rw [data_append, show "ID".data = ['I', 'D'] from rfl]
  simp [List.reverse_append, startsWithList]

theorem dropRightStr_append_ID (base : String) :
    dropRightStr (base ++ "ID") 2 = base := by
  apply str_ext
  unfold dropRightStr
  rw [data_mk, data_append, show "ID".data = ['I', 'D'] from rfl]
  have hlen : (base.data ++ ['I', 'D']).length - 2 = base.data.length := by simp
  rw [hlen, take_length_append]

theorem jsToLower_append_ID (base : String) :
    jsToLower (base ++ "ID") = ⟨base.data.map jsCharLower ++ ['i', 'd']⟩ := by
  apply str_ext
  unfold jsToLower
  rw [data_mk, data_mk, data_append, show "ID".data = ['I', 'D'] from rfl,
    List.map_append]
  rfl

/-- A column whose name ends in the exact characters "ID" can never be
matched by the style-suffix rule: its lowercased name ends in 'd', while
"style" ends in 'e' and "стиль" in 'ь'. -/
theorem styleRuleHides_of_ID (cols : List Column) (col : Column) (base : String)
    (hname : col.name = base ++ "ID") : styleRuleHides cols col = false := by
  unfold styleRuleHides
  rw [hname, jsToLower_append_ID]
  have h1 : jsEndsWith ⟨base.data.map jsCharLower ++ ['i', 'd']⟩ "стиль" = false := by
    unfold jsEndsWith
    rw [data_mk, show "стиль".data = ['с', 'т', 'и', 'л', 'ь'] from rfl]
    simp [List.reverse_append, startsWithList]
  have h2 : jsEndsWith ⟨base.data.map jsCharLower ++ ['i', 'd']⟩ "style" = false := by
    unfold jsEndsWith
    rw [data_mk, show "style".data = ['s', 't', 'y', 'l', 'e'] from rfl]
    simp [List.reverse_append, startsWithList]
  simp [h1, h2]

theorem lastNamed_isSome_iff (cols : List Column) (n : String) :
    (lastNamed cols n).isSome = true ↔ ∃ c ∈ cols, c.name = n := by
  unfold lastNamed
  rw [List.find?_isSome]
  simp [List.mem_reverse]

theorem idRuleHides_iff_base_exists (cols : List Column) (col : Column) (base : String)
    (hname : col.name = base ++ "ID") :
    idRuleHides cols col = true ↔ ∃ c ∈ cols, c.name = base := by
  unfold idRuleHides
  rw [hname, jsEndsWith_append_ID, dropRightStr_append_ID]
  simp [lastNamed_isSome_iff]

/-- The column list of the P5 scenario. -/
def cols4 : List Column :=
  [⟨"1", "Client", "CHARS", 1, 0⟩, ⟨"2", "ClientID", "NUMBER", 1, 0⟩,
   ⟨"3", "Status", "CHARS", 1, 0⟩, ⟨"4", "StatusStyle", "CHARS", 1, 0⟩]

/-- C4: on the scenario columns Client / ClientID / Status / StatusStyle
(wire ids 1-4), the deriver hides ClientID and StatusStyle, leaves
Client and Status visible, marks Client editable with ClientID as its
record-id source, and maps Status to StatusStyle for inline styling; a
lone column literally named "Style" hides nothing (the sliced base name
is empty and matches no column); and in general, over any column list
with distinct ids, a column named `<Base>ID` is hidden exactly when a
column literally named `<Base>` also exists. -/
theorem column_visibility_derivation :
    ("2" ∈ (processColumnVisibility cols4).idColumns)
    ∧ ("4" ∈ (processColumnVisibility cols4).idColumns)
    ∧ ("1" ∉ (processColumnVisibility cols4).idColumns)
    ∧ ("3" ∉ (processColumnVisibility cols4).idColumns)
    ∧ (processColumnVisibility cols4).editableColumns = [("1", "2")]
    ∧ (processColumnVisibility cols4).styleColumns = [("3", "4")]
    ∧ (processColumnVisibility [⟨"9", "Style", "CHARS", 1, 0⟩]).idColumns = []
    ∧ (∀ (cols : List Column) (col : Column) (base : String),
        (cols.map Column.id).Nodup → col ∈ cols → col.name = base ++ "ID" →
        (col.id ∈ (processColumnVisibility cols).idColumns ↔ ∃ c ∈ cols, c.name = base)) := by
  refine ⟨by decide, by decide, by decide, by decide, by decide, by decide, by decide, ?_⟩
  intro cols col base hnd hmem hname
  rw [mem_idColumns_iff]
  constructor
  · rintro ⟨c, hc, hrule, hid⟩
    have hceq : c = col := List.inj_on_of_nodup_map hnd hc hmem hid.symm
    subst hceq
    rcases hrule with hr | hr
    · exact (idRuleHides_iff_base_exists cols c base hname).mp hr
    · rw [styleRuleHides_of_ID cols c base hname] at hr
      cases hr
  · rintro ⟨c, hc, hbase⟩
    exact ⟨col, hmem,
      Or.inl ((idRuleHides_iff_base_exists cols col base hname).mpr ⟨c, hc, hbase⟩), rfl⟩

theorem column_visibility_derivation_witness :
    "2" ∈ (processColumnVisibility cols4).idColumns :=
  (column_visibility_derivation.2.2.2.2.2.2.2 cols4 ⟨"2", "ClientID", "NUMBER", 1, 0⟩
      "Client" (by decide) (by decide) rfl).mpr
    ⟨⟨"1", "Client", "CHARS", 1, 0⟩, by decide, rfl⟩

/-! ### Lemmas for the filter codec -/

theorem str_append_assoc (a b c : String) : (a ++ b) ++ c = a ++ (b ++ c) := by
  apply str_ext
  simp [data_append]

theorem append_empty (s : String) : s ++ "" = s := by
  apply str_ext
  simp [data_append]

theorem replaceFirst_self (pat rep : String) : replaceFirst pat pat rep = rep := by
  have h := replaceFirst_append_self pat "" rep
  rwa [append_empty, append_empty] at h

/-- Reduction of `applyFilter` for a standard value-substituting operator
whose template has the shape `FR_{ T }=<mid>{ X }<post>`: the substituted
value is emitted with the leading `FR_<id>=` stripped. -/
theorem applyFilter_std (col : Column) (grp : List FilterDef)
    (sym value mid post lbl : String)
    (hgrp : filterGroupFor col.format = grp)
    (h0 : sym ≠ "") (h1 : sym ≠ "...") (h2 : sym ≠ "%") (h3 : sym ≠ "!%")
    (hfind : grp.find? (fun f => f.symbol = sym)
        = some ⟨sym, lbl, "FR_" ++ ("\x7b T \x7d" ++ ("=" ++ (mid ++ ("\x7b X \x7d" ++ post))))⟩)
    (hcid : ('\x7b' : Char) ∉ col.id.data)
    (hmid : ('\x7b' : Char) ∉ mid.data) :
    applyFilter col ⟨sym, value⟩ = [("FR_" ++ col.id, mid ++ (value ++ post))] := by
  have hT : replaceFirst
        ("FR_" ++ ("\x7b T \x7d" ++ ("=" ++ (mid ++ ("\x7b X \x7d" ++ post)))))
        "\x7b T \x7d" col.id
      = "FR_" ++ (col.id ++ ("=" ++ (mid ++ ("\x7b X \x7d" ++ post)))) := by
    rw [replaceFirst_append_left "FR_" _ _ _ '\x7b' [' ', 'T', ' ', '\x7d'] rfl (by decide),
      replaceFirst_append_self]
  have hX : replaceFirst
        ("FR_" ++ (col.id ++ ("=" ++ (mid ++ ("\x7b X \x7d" ++ post)))))
        "\x7b X \x7d" value
      = "FR_" ++ (col.id ++ ("=" ++ (mid ++ (value ++ post)))) := by
    rw [replaceFirst_append_left "FR_" _ _ _ '\x7b' [' ', 'X', ' ', '\x7d'] rfl (by decide),
      replaceFirst_append_left col.id _ _ _ '\x7b' [' ', 'X', ' ', '\x7d'] rfl hcid,
      replaceFirst_append_left "=" _ _ _ '\x7b' [' ', 'X', ' ', '\x7d'] rfl (by decide),
      replaceFirst_append_left mid _ _ _ '\x7b' [' ', 'X', ' ', '\x7d'] rfl hmid,
      replaceFirst_append_self]
  have hregroup : "FR_" ++ (col.id ++ ("=" ++ (mid ++ (value ++ post))))
      = ("FR_" ++ col.id ++ "=") ++ (mid ++ (value ++ post)) := by
    apply str_ext
    simp [data_append]
  have hstrip : replaceFirst ("FR_" ++ (col.id ++ ("=" ++ (mid ++ (value ++ post)))))
        ("FR_" ++ col.id ++ "=") ""
      = mid ++ (value ++ post) := by
    rw [hregroup, replaceFirst_append_self, empty_append]
  simp only [applyFilter, hgrp, if_neg h0, hfind, if_neg h1,
    if_neg (by simp [h2, h3] : ¬ (sym = "%" ∨ sym = "!%"))]
  rw [hT, hX, hstrip]

/-- Reduction of `applyFilter` for the comparison operators whose
template lacks the `=` separator (`FR_{ T }><sep>{ X }`): the strip of
`FR_<id>=` finds nothing (as long as the substituted string does not
contain it), so the whole substituted template becomes the value. -/
theorem applyFilter_cmp (col : Column) (grp : List FilterDef)
    (sym value sep lbl : String)
    (hgrp : filterGroupFor col.format = grp)
    (h0 : sym ≠ "") (h1 : sym ≠ "...") (h2 : sym ≠ "%") (h3 : sym ≠ "!%")
    (hfind : grp.find? (fun f => f.symbol = sym)
        = some ⟨sym, lbl, "FR_" ++ ("\x7b T \x7d" ++ (sep ++ "\x7b X \x7d"))⟩)
    (hcid : ('\x7b' : Char) ∉ col.id.data)
    (hsep : ('\x7b' : Char) ∉ sep.data)
    (hocc : containsStr ("FR_" ++ (col.id ++ (sep ++ value))) ("FR_" ++ col.id ++ "=") = false) :
    applyFilter col ⟨sym, value⟩
      = [("FR_" ++ col.id, "FR_" ++ (col.id ++ (sep ++ value)))] := by
  have hT : replaceFirst ("FR_" ++ ("\x7b T \x7d" ++ (sep ++ "\x7b X \x7d")))
        "\x7b T \x7d" col.id
      = "FR_" ++ (col.id ++ (sep ++ "\x7b X \x7d")) := by
    rw [replaceFirst_append_left "FR_" _ _ _ '\x7b' [' ', 'T', ' ', '\x7d'] rfl (by decide),
      replaceFirst_append_self]
  have hX : replaceFirst ("FR_" ++ (col.id ++ (sep ++ "\x7b X \x7d"))) "\x7b X \x7d" value
      = "FR_" ++ (col.id ++ (sep ++ value)) := by
    rw [replaceFirst_append_left "FR_" _ _ _ '\x7b' [' ', 'X', ' ', '\x7d'] rfl (by decide),
      replaceFirst_append_left col.id _ _ _ '\x7b' [' ', 'X', ' ', '\x7d'] rfl hcid,
      replaceFirst_append_left sep _ _ _ '\x7b' [' ', 'X', ' ', '\x7d'] rfl hsep,
      replaceFirst_self]
  simp only [applyFilter, hgrp, if_neg h0, hfind, if_neg h1,
    if_neg (by simp [h2, h3] : ¬ (sym = "%" ∨ sym = "!%"))]
  rw [hT, hX, replaceFirst_of_not_contains _ _ _ hocc]

/-- Reduction of `applyFilter` for the range operator: split on commas,
trim, and emit the `FR_` / `TO_` bound pair, or nothing when fewer than
two parts result. -/
theorem applyFilter_range (col : Column) (grp : List FilterDef)
    (value lbl fmtstr : String)
    (hgrp : filterGroupFor col.format = grp)
    (hfind : grp.find? (fun f => f.symbol = "...")
        = some ⟨"...", lbl, fmtstr⟩) :
    applyFilter col ⟨"...", value⟩
      = (if 2 ≤ ((jsSplitComma value).map jsTrim).length then
          [("FR_" ++ col.id, ((jsSplitComma value).map jsTrim).getD 0 ""),
           ("TO_" ++ col.id, ((jsSplitComma value).map jsTrim).getD 1 "")]
        else []) := by
  unfold applyFilter
  simp [hgrp, hfind]

/-- Reduction of `applyFilter` for the valueless empty / not-empty
operators: a fixed sentinel is emitted and the raw value is ignored. -/
theorem applyFilter_empty_op (col : Column) (grp : List FilterDef)
    (v lbl fmtstr sym : String)
    (hgrp : filterGroupFor col.format = grp)
    (hsym : sym = "%" ∨ sym = "!%")
    (hfind : grp.find? (fun f => f.symbol = sym)
        = some ⟨sym, lbl, fmtstr⟩) :
    applyFilter col ⟨sym, v⟩
      = [("FR_" ++ col.id, if sym = "%" then "%" else "!%")] := by
  unfold applyFilter
  rcases hsym with rfl | rfl <;> simp [hgrp, hfind]

/-- A symbol missing from the column kind's operator table produces no
parameters. -/
theorem applyFilter_unsupported (col : Column) (sym v : String) (h0 : sym ≠ "")
    (hns : sym ∉ (filterGroupFor col.format).map FilterDef.symbol) :
    applyFilter col ⟨sym, v⟩ = [] := by
  unfold applyFilter
  have hfind : (filterGroupFor col.format).find?
      (fun f => f.symbol = (if sym = "" then "^" else sym)) = none := by
    rw [if_neg h0, List.find?_eq_none]
    intro x hx
    simp only [decide_eq_true_eq]
    intro heq
    exact hns (heq ▸ List.mem_map_of_mem FilterDef.symbol hx)
  simp [hfind]

/-- C5: the filter codec emits, for every (column kind, operator symbol)
pair of the operator tables and a non-empty value, exactly the wire
parameter(s) the table's template prescribes (value substituted into the
template, the leading `FR_<id>=` stripped back off; the range operator
splits into an `FR_`/`TO_` bound pair or nothing when malformed; the
empty / not-empty operators emit a fixed sentinel ignoring the value;
for `>` and `<`, whose templates carry no `=`, nothing is stripped, so
the whole substituted template is the parameter value, provided the
substituted string does not accidentally contain `FR_<id>=`); a symbol
unsupported by the column's kind emits no parameters; and the scenario
operator `^` with value "test" on text column 4284 encodes to exactly
`FR_4284=test%`. -/
theorem filter_codec (colId value : String)
    (hcid : ('\x7b' : Char) ∉ colId.data) (_hval : value ≠ "") :
    (applyFilter ⟨"4284", "T", "CHARS", 1, 0⟩ ⟨"^", "test"⟩ = [("FR_4284", "test%")])
    ∧ (∀ fmt sym v, sym ≠ "" → sym ∉ (filterGroupFor fmt).map FilterDef.symbol →
        applyFilter ⟨colId, "C", fmt, 1, 0⟩ ⟨sym, v⟩ = [])
    ∧ (∀ fmt ∈ ["CHARS", "SHORT", "MEMO"],
          applyFilter ⟨colId, "C", fmt, 1, 0⟩ ⟨"^", value⟩
            = [("FR_" ++ colId, value ++ "%")]
        ∧ applyFilter ⟨colId, "C", fmt, 1, 0⟩ ⟨"=", value⟩
            = [("FR_" ++ colId, value)]
        ∧ applyFilter ⟨colId, "C", fmt, 1, 0⟩ ⟨"≠", value⟩
            = [("FR_" ++ colId, "!" ++ value)]
        ∧ applyFilter ⟨colId, "C", fmt, 1, 0⟩ ⟨"~", value⟩
            = [("FR_" ++ colId, "%" ++ (value ++ "%"))]
        ∧ applyFilter ⟨colId, "C", fmt, 1, 0⟩ ⟨"!", value⟩
            = [("FR_" ++ colId, "!%" ++ (value ++ "%"))]
        ∧ applyFilter ⟨colId, "C", fmt, 1, 0⟩ ⟨"!^", value⟩
            = [("FR_" ++ colId, "!%" ++ value)]
        ∧ applyFilter ⟨colId, "C", fmt, 1, 0⟩ ⟨"$", value⟩
            = [("FR_" ++ colId, "%" ++ value)]
        ∧ applyFilter ⟨colId, "C", fmt, 1, 0⟩ ⟨"(,)", value⟩
            = [("FR_" ++ colId, "IN(" ++ (value ++ ")"))]
        ∧ (∀ v, applyFilter ⟨colId, "C", fmt, 1, 0⟩ ⟨"%", v⟩
            = [("FR_" ++ colId, "%")])
        ∧ (∀ v, applyFilter ⟨colId, "C", fmt, 1, 0⟩ ⟨"!%", v⟩
            = [("FR_" ++ colId, "!%")]))
    ∧ (∀ fmt ∈ ["NUMBER", "SIGNED"],
          applyFilter ⟨colId, "C", fmt, 1, 0⟩ ⟨"^", value⟩
            = [("FR_" ++ colId, value ++ "%")]
        ∧ applyFilter ⟨colId, "C", fmt, 1, 0⟩ ⟨"=", value⟩
            = [("FR_" ++ colId, value)]
        ∧ applyFilter ⟨colId, "C", fmt, 1, 0⟩ ⟨"≠", value⟩
            = [("FR_" ++ colId, "!" ++ value)]
        ∧ applyFilter ⟨colId, "C", fmt, 1, 0⟩ ⟨"≥", value⟩
            = [("FR_" ++ colId, ">=" ++ value)]
        ∧ applyFilter ⟨colId, "C", fmt, 1, 0⟩ ⟨"≤", value⟩
            = [("FR_" ++ colId, "<=" ++ value)]
        ∧ (containsStr ("FR_" ++ (colId ++ (">" ++ value))) ("FR_" ++ colId ++ "=") = false →
            applyFilter ⟨colId, "C", fmt, 1, 0⟩ ⟨">", value⟩
              = [("FR_" ++ colId, "FR_" ++ (colId ++ (">" ++ value)))])
        ∧ (containsStr ("FR_" ++ (colId ++ ("<" ++ value))) ("FR_" ++ colId ++ "=") = false →
            applyFilter ⟨colId, "C", fmt, 1, 0⟩ ⟨"<", value⟩
              = [("FR_" ++ colId, "FR_" ++ (colId ++ ("<" ++ value)))])
        ∧ applyFilter ⟨colId, "C", fmt, 1, 0⟩ ⟨"...", value⟩
            = (if 2 ≤ ((jsSplitComma value).map jsTrim).length then
                [("FR_" ++ colId, ((jsSplitComma value).map jsTrim).getD 0 ""),
                 ("TO_" ++ colId, ((jsSplitComma value).map jsTrim).getD 1 "")]
              else [])
        ∧ (∀ v, applyFilter ⟨colId, "C", fmt, 1, 0⟩ ⟨"%", v⟩
            = [("FR_" ++ colId, "%")])
        ∧ (∀ v, applyFilter ⟨colId, "C", fmt, 1, 0⟩ ⟨"!%", v⟩
            = [("FR_" ++ colId, "!%")]))
    ∧ (∀ fmt ∈ ["DATE", "DATETIME"],
          applyFilter ⟨colId, "C", fmt, 1, 0⟩ ⟨"=", value⟩
            = [("FR_" ++ colId, value)]
        ∧ applyFilter ⟨colId, "C", fmt, 1, 0⟩ ⟨"≥", value⟩
            = [("FR_" ++ colId, ">=" ++ value)]
        ∧ applyFilter ⟨colId, "C", fmt, 1, 0⟩ ⟨"≤", value⟩
            = [("FR_" ++ colId, "<=" ++ value)]
        ∧ (containsStr ("FR_" ++ (colId ++ (">" ++ value))) ("FR_" ++ colId ++ "=") = false →
            applyFilter ⟨colId, "C", fmt, 1, 0⟩ ⟨">", value⟩
              = [("FR_" ++ colId, "FR_" ++ (colId ++ (">" ++ value)))])
        ∧ (containsStr ("FR_" ++ (colId ++ ("<" ++ value))) ("FR_" ++ colId ++ "=") = false →
            applyFilter ⟨colId, "C", fmt, 1, 0⟩ ⟨"<", value⟩
              = [("FR_" ++ colId, "FR_" ++ (colId ++ ("<" ++ value)))])
        ∧ applyFilter ⟨colId, "C", fmt, 1, 0⟩ ⟨"...", value⟩
            = (if 2 ≤ ((jsSplitComma value).map jsTrim).length then
                [("FR_" ++ colId, ((jsSplitComma value).map jsTrim).getD 0 ""),
                 ("TO_" ++ colId, ((jsSplitComma value).map jsTrim).getD 1 "")]
              else [])
        ∧ (∀ v, applyFilter ⟨colId, "C", fmt, 1, 0⟩ ⟨"%", v⟩
            = [("FR_" ++ colId, "%")])
        ∧ (∀ v, applyFilter ⟨colId, "C", fmt, 1, 0⟩ ⟨"!%", v⟩
            = [("FR_" ++ colId, "!%")])) := by
  refine ⟨by decide, ?_, ?_, ?_, ?_⟩
  · intro fmt sym v h0 hns
    exact applyFilter_unsupported ⟨colId, "C", fmt, 1, 0⟩ sym v h0 hns
  · intro fmt hf
    fin_cases hf <;>
      exact ⟨
        by rw [applyFilter_std _ charsFilters "^" value "" "%" "nachinaetsya s" (by exact rfl) (by decide) (by decide)
            (by decide) (by decide) (by decide) hcid (by decide), empty_append],
        by rw [applyFilter_std _ charsFilters "=" value "" "" "ravno" (by exact rfl) (by decide) (by decide)
            (by decide) (by decide) (by decide) hcid (by decide), append_empty, empty_append],
        by rw [applyFilter_std _ charsFilters "≠" value "!" "" "ne ravno" (by exact rfl) (by decide) (by decide)
            (by decide) (by decide) (by decide) hcid (by decide), append_empty],
        by rw [applyFilter_std _ charsFilters "~" value "%" "%" "soderzhit" (by exact rfl) (by decide) (by decide)
            (by decide) (by decide) (by decide) hcid (by decide)],
        by rw [applyFilter_std _ charsFilters "!" value "!%" "%" "ne soderzhit" (by exact rfl) (by decide) (by decide)
            (by decide) (by decide) (by decide) hcid (by decide)],
        by rw [applyFilter_std _ charsFilters "!^" value "!%" "" "ne nachinaetsya" (by exact rfl) (by decide) (by decide)
            (by decide) (by decide) (by decide) hcid (by decide), append_empty],
        by rw [applyFilter_std _ charsFilters "$" value "%" "" "zakanchivaetsya" (by exact rfl) (by decide) (by decide)
            (by decide) (by decide) (by decide) hcid (by decide), append_empty],
        by rw [applyFilter_std _ charsFilters "(,)" value "IN(" ")" "v spiske" (by exact rfl) (by decide) (by decide)
            (by decide) (by decide) (by decide) hcid (by decide)],
        fun v => by
          rw [applyFilter_empty_op _ charsFilters v "ne pustoe" "FR_\x7b T \x7d=%" "%" (by exact rfl)
            (Or.inl rfl) (by decide)]; rfl,
        fun v => by
          rw [applyFilter_empty_op _ charsFilters v "pustoe" "FR_\x7b T \x7d=!%" "!%" (by exact rfl)
            (Or.inr rfl) (by decide)]; rfl⟩
  · intro fmt hf
    fin_cases hf <;>
      exact ⟨
        by rw [applyFilter_std _ numberFilters "^" value "" "%" "nachinaetsya s" (by exact rfl) (by decide) (by decide)
            (by decide) (by decide) (by decide) hcid (by decide), empty_append],
        by rw [applyFilter_std _ numberFilters "=" value "" "" "ravno" (by exact rfl) (by decide) (by decide)
            (by decide) (by decide) (by decide) hcid (by decide), append_empty, empty_append],
        by rw [applyFilter_std _ numberFilters "≠" value "!" "" "ne ravno" (by exact rfl) (by decide) (by decide)
            (by decide) (by decide) (by decide) hcid (by decide), append_empty],
        by rw [applyFilter_std _ numberFilters "≥" value ">=" "" "ne menshe" (by exact rfl) (by decide) (by decide)
            (by decide) (by decide) (by decide) hcid (by decide), append_empty],
        by rw [applyFilter_std _ numberFilters "≤" value "<=" "" "ne bolshe" (by exact rfl) (by decide) (by decide)
            (by decide) (by decide) (by decide) hcid (by decide), append_empty],
        fun hocc => by
          rw [applyFilter_cmp _ numberFilters ">" value ">" "bolshe" (by exact rfl) (by decide) (by decide)
            (by decide) (by decide) (by decide) hcid (by decide) hocc],
        fun hocc => by
          rw [applyFilter_cmp _ numberFilters "<" value "<" "menshe" (by exact rfl) (by decide) (by decide)
            (by decide) (by decide) (by decide) hcid (by decide) hocc],
        by rw [applyFilter_range _ numberFilters value "v diapazone"
            "FR_\x7b T \x7d=\x7b X1 \x7d&TO_\x7b T \x7d=\x7b X2 \x7d" (by exact rfl) (by decide)],
        fun v => by
          rw [applyFilter_empty_op _ numberFilters v "ne pustoe" "FR_\x7b T \x7d=%" "%" (by exact rfl)
            (Or.inl rfl) (by decide)]; rfl,
        fun v => by
          rw [applyFilter_empty_op _ numberFilters v "pustoe" "FR_\x7b T \x7d=!%" "!%" (by exact rfl)
            (Or.inr rfl) (by decide)]; rfl⟩
  · intro fmt hf
    fin_cases hf <;>
      exact ⟨
        by rw [applyFilter_std _ dateFilters "=" value "" "" "ravno" (by exact rfl) (by decide) (by decide)
            (by decide) (by decide) (by decide) hcid (by decide), append_empty, empty_append],
        by rw [applyFilter_std _ dateFilters "≥" value ">=" "" "ne menshe" (by exact rfl) (by decide) (by decide)
            (by decide) (by decide) (by decide) hcid (by decide), append_empty],
        by rw [applyFilter_std _ dateFilters "≤" value "<=" "" "ne bolshe" (by exact rfl) (by decide) (by decide)
            (by decide) (by decide) (by decide) hcid (by decide), append_empty],
        fun hocc => by
          rw [applyFilter_cmp _ dateFilters ">" value ">" "bolshe" (by exact rfl) (by decide) (by decide)
            (by decide) (by decide) (by decide) hcid (by decide) hocc],
        fun hocc => by
          rw [applyFilter_cmp _ dateFilters "<" value "<" "menshe" (by exact rfl) (by decide) (by decide)
            (by decide) (by decide) (by decide) hcid (by decide) hocc],
        by rw [applyFilter_range _ dateFilters value "v diapazone"
            "FR_\x7b T \x7d=\x7b X1 \x7d&TO_\x7b T \x7d=\x7b X2 \x7d" (by exact rfl) (by decide)],
        fun v => by
          rw [applyFilter_empty_op _ dateFilters v "ne pustoe" "FR_\x7b T \x7d=%" "%" (by exact rfl)
            (Or.inl rfl) (by decide)]; rfl,
        fun v => by
          rw [applyFilter_empty_op _ dateFilters v "pustoe" "FR_\x7b T \x7d=!%" "!%" (by exact rfl)
            (Or.inr rfl) (by decide)]; rfl⟩

theorem filter_codec_witness :
    applyFilter ⟨"4284", "T", "CHARS", 1, 0⟩ ⟨"^", "test"⟩ = [("FR_4284", "test%")] :=
  (filter_codec "4284" "test" (by decide) (by decide)).1

end IntegramTable
